import Mathlib

/-!
# Verification of the battleground_construct core

Shallow embedding, over exact rationals, of the two source files that the
claims are about:

* `src/battleground_construct/src/components/gun_battery.rs` — the weapon
  battery scheduler (`GunBattery`);
* `src/battleground_construct/src/components/velocity.rs` — twist
  integration (`Velocity::integrate`, `Velocity::integrate_pose`) and the
  kinematic chain evaluator (`world_velocity`).

Modelling conventions:

* Rust `f32` times and matrix entries are embedded as exact rationals `ℚ`;
  all the arithmetic the claims exercise is addition, subtraction,
  multiplication, division and comparison at small dyadic values, where
  rational arithmetic agrees with the code's intent (rounding is not
  modelled).
* `cgmath` (an external crate) matrices are column-major; `Mat4` mirrors
  `cgmath::Matrix4` with columns `x y z w`, and its operations
  (`from_translation`, `from_angle_*`, multiplication, `Matrix3`
  determinant) are the standard ones.  The trigonometric functions used by
  `Matrix4::from_angle_*` are abstracted as function parameters
  `cF sF : ℚ → ℚ` (cosine and sine); every claim instantiates them only at
  angle `0`, where `cF 0 = 1` and `sF 0 = 0` characterise them.
* Rust panics (out-of-bounds indexing in `GunBattery::fired`) are embedded
  as `Option`, with `none` for the panic.
* `Pose` (file `pose.rs`, not part of the excerpt) wraps a `Matrix4`; it is
  represented here directly by its transform matrix.
-/

/-- Embeds `cgmath::Vector3<f32>`: a 3-vector of rationals. -/
@[ext]
structure Vec3 where
  x : ℚ
  y : ℚ
  z : ℚ
deriving DecidableEq

/-- Embeds `cgmath::Vector4<f32>`: a 4-vector of rationals. -/
@[ext]
structure Vec4 where
  x : ℚ
  y : ℚ
  z : ℚ
  w : ℚ
deriving DecidableEq

/-- Componentwise addition of 3-vectors. -/
def Vec3.add (a b : Vec3) : Vec3 :=
  ⟨a.x + b.x, a.y + b.y, a.z + b.z⟩

/-- Scalar multiple of a 3-vector. -/
def Vec3.smul (c : ℚ) (a : Vec3) : Vec3 :=
  ⟨c * a.x, c * a.y, c * a.z⟩

/-- Dot product of 3-vectors (`cgmath::InnerSpace::dot`). -/
def Vec3.dot (a b : Vec3) : ℚ :=
  a.x * b.x + a.y * b.y + a.z * b.z

/-- Cross product of 3-vectors. -/
def Vec3.cross (a b : Vec3) : Vec3 :=
  ⟨a.y * b.z - a.z * b.y, a.z * b.x - a.x * b.z, a.x * b.y - a.y * b.x⟩

/-- Embeds `Vector3::extend`: append a fourth component. -/
def Vec3.extend (a : Vec3) (c : ℚ) : Vec4 :=
  ⟨a.x, a.y, a.z, c⟩

/-- The zero 3-vector. -/
def Vec3.zero : Vec3 := ⟨0, 0, 0⟩

/-- Componentwise addition of 4-vectors. -/
def Vec4.add (a b : Vec4) : Vec4 :=
  ⟨a.x + b.x, a.y + b.y, a.z + b.z, a.w + b.w⟩

/-- Scalar multiple of a 4-vector. -/
def Vec4.smul (c : ℚ) (a : Vec4) : Vec4 :=
  ⟨c * a.x, c * a.y, c * a.z, c * a.w⟩

/-- Embeds `Vector4::truncate`: drop the fourth component. -/
def Vec4.truncate (a : Vec4) : Vec3 :=
  ⟨a.x, a.y, a.z⟩

/-- Embeds `cgmath::Matrix4<f32>`: column-major, columns `x y z w`. -/
@[ext]
structure Mat4 where
  x : Vec4
  y : Vec4
  z : Vec4
  w : Vec4
deriving DecidableEq

/-- Matrix-vector product: the linear combination of the columns. -/
def Mat4.mulVec (m : Mat4) (v : Vec4) : Vec4 :=
  (((Vec4.smul v.x m.x).add (Vec4.smul v.y m.y)).add (Vec4.smul v.z m.z)).add
    (Vec4.smul v.w m.w)

/-- Matrix product (`Matrix4 * Matrix4` of `cgmath`). -/
def Mat4.mul (a b : Mat4) : Mat4 :=
  ⟨a.mulVec b.x, a.mulVec b.y, a.mulVec b.z, a.mulVec b.w⟩

/-- The identity transform (`Matrix4::identity`, also `Pose::new()`). -/
def Mat4.identity : Mat4 :=
  ⟨⟨1, 0, 0, 0⟩, ⟨0, 1, 0, 0⟩, ⟨0, 0, 1, 0⟩, ⟨0, 0, 0, 1⟩⟩

/-- Embeds `Matrix4::from_translation t`: identity rotation, translation `t`. -/
def Mat4.from_translation (t : Vec3) : Mat4 :=
  ⟨⟨1, 0, 0, 0⟩, ⟨0, 1, 0, 0⟩, ⟨0, 0, 1, 0⟩, ⟨t.x, t.y, t.z, 1⟩⟩

/-- Embeds `Matrix4::from_angle_x θ`, given `c = cos θ` and `s = sin θ`. -/
def Mat4.from_angle_x (c s : ℚ) : Mat4 :=
  ⟨⟨1, 0, 0, 0⟩, ⟨0, c, s, 0⟩, ⟨0, -s, c, 0⟩, ⟨0, 0, 0, 1⟩⟩

/-- Embeds `Matrix4::from_angle_y θ`, given `c = cos θ` and `s = sin θ`. -/
def Mat4.from_angle_y (c s : ℚ) : Mat4 :=
  ⟨⟨c, 0, -s, 0⟩, ⟨0, 1, 0, 0⟩, ⟨s, 0, c, 0⟩, ⟨0, 0, 0, 1⟩⟩

/-- Embeds `Matrix4::from_angle_z θ`, given `c = cos θ` and `s = sin θ`. -/
def Mat4.from_angle_z (c s : ℚ) : Mat4 :=
  ⟨⟨c, s, 0, 0⟩, ⟨-s, c, 0, 0⟩, ⟨0, 0, 1, 0⟩, ⟨0, 0, 0, 1⟩⟩

/-- Apply the rotation block (truncated columns) of a transform to a
3-vector. -/
def Mat4.rotVec (m : Mat4) (u : Vec3) : Vec3 :=
  ((Vec3.smul u.x m.x.truncate).add (Vec3.smul u.y m.y.truncate)).add
    (Vec3.smul u.z m.z.truncate)

/-- Determinant of the 3×3 matrix with the given columns
(`cgmath::Matrix3::determinant`). -/
def det3 (c0 c1 c2 : Vec3) : ℚ :=
  c0.dot (c1.cross c2)

/-- Embeds `Velocity` of `velocity.rs`: a body-frame twist with linear part
`v` and angular part `w`.  The crate's `Twist<f32>` has the same two fields;
`Velocity::to_twist` is the identity conversion, so a single structure
represents both. -/
@[ext]
structure Velocity where
  v : Vec3
  w : Vec3
deriving DecidableEq

/-- Embeds `Velocity::new()`: the zero twist. -/
def Velocity.zero : Velocity := ⟨Vec3.zero, Vec3.zero⟩

/-- Twist addition (componentwise, as in the crate's `Twist + Twist`). -/
def Velocity.add (a b : Velocity) : Velocity :=
  ⟨a.v.add b.v, a.w.add b.w⟩

/-- Modelled from the spec: the adjoint transform of a pose, "the linear
operator derived from a pose that re-expresses a twist given in one frame
into another frame related by that pose" (spec §4.1 and glossary; the
implementation `to_adjoint` lives in `util/cgmath.rs`, which is not part of
the excerpt).  This is the standard SE(3) adjoint: with rotation block `R`
and translation `p`, the twist `(v, w)` maps to `(R v + p × (R w), R w)`. -/
def adjointApply (m : Mat4) (t : Velocity) : Velocity :=
  let rw := m.rotVec t.w
  ⟨(m.rotVec t.v).add ((m.w.truncate).cross rw), rw⟩

/-- Embeds `Velocity::integrate(dt)`: the pose delta
`from_translation(v*dt) * from_angle_x(w.x*dt) * from_angle_y(w.y*dt) *
from_angle_z(w.z*dt)`, with cosine and sine abstracted as `cF` and `sF`. -/
def Velocity.integrate (cF sF : ℚ → ℚ) (vel : Velocity) (dt : ℚ) : Mat4 :=
  (((Mat4.from_translation ⟨vel.v.x * dt, vel.v.y * dt, vel.v.z * dt⟩).mul
        (Mat4.from_angle_x (cF (vel.w.x * dt)) (sF (vel.w.x * dt)))).mul
      (Mat4.from_angle_y (cF (vel.w.y * dt)) (sF (vel.w.y * dt)))).mul
    (Mat4.from_angle_z (cF (vel.w.z * dt)) (sF (vel.w.z * dt)))

/-- Embeds `Velocity::integrate_pose(pose, dt)`: composes the integrated
twist onto the pose, rescales each rotation column `c` by
`0.5 * (3 - dot(c, c))`, then divides the three rotation columns by the
determinant of the rescaled 3×3 block, and keeps the translation column of
the composed matrix. -/
def Velocity.integrate_pose (cF sF : ℚ → ℚ) (vel : Velocity) (pose : Mat4)
    (dt : ℚ) : Mat4 :=
  let res := pose.mul (vel.integrate cF sF dt)
  let x_ort := res.x.truncate
  let y_ort := res.y.truncate
  let z_ort := res.z.truncate
  let c0 := Vec3.smul (1/2 * (3 - x_ort.dot x_ort)) x_ort
  let c1 := Vec3.smul (1/2 * (3 - y_ort.dot y_ort)) y_ort
  let c2 := Vec3.smul (1/2 * (3 - z_ort.dot z_ort)) z_ort
  let det := det3 c0 c1 c2
  let d0 := Vec3.smul (1 / det) c0
  let d1 := Vec3.smul (1 / det) c1
  let d2 := Vec3.smul (1 / det) c2
  ⟨d0.extend 0, d1.extend 0, d2.extend 0, res.w⟩

/-- Modelled from the spec: `orthonormalize` as spec §4.1 words it — the
pure three-column renormalization, "each column `c` rescaled by
`0.5*(3 - dot(c,c))`", applied inside `integrate_pose` with the translation
column left unchanged and nothing else.  Kept separate from the source
embedding `Velocity.integrate_pose` so the two can be compared. -/
def integrate_pose_spec (cF sF : ℚ → ℚ) (vel : Velocity) (pose : Mat4)
    (dt : ℚ) : Mat4 :=
  let res := pose.mul (vel.integrate cF sF dt)
  let x_ort := res.x.truncate
  let y_ort := res.y.truncate
  let z_ort := res.z.truncate
  let c0 := Vec3.smul (1/2 * (3 - x_ort.dot x_ort)) x_ort
  let c1 := Vec3.smul (1/2 * (3 - y_ort.dot y_ort)) y_ort
  let c2 := Vec3.smul (1/2 * (3 - z_ort.dot z_ort)) z_ort
  ⟨c0.extend 0, c1.extend 0, c2.extend 0, res.w⟩

/-- A column is within tolerance `tol` of unit norm exactly when its squared
norm lies within `[(1-tol)^2, (1+tol)^2]` (avoids square roots over `ℚ`). -/
def colNormWithin (c : Vec3) (tol : ℚ) : Prop :=
  (1 - tol) ^ 2 ≤ c.dot c ∧ c.dot c ≤ (1 + tol) ^ 2

instance (c : Vec3) (tol : ℚ) : Decidable (colNormWithin c tol) := by
  unfold colNormWithin
  infer_instance

/-! ## GunBattery (`gun_battery.rs`)

`GunBatteryConfig.fire_effect` is an opaque callback (`Rc<dyn Fn…>`) that no
claim touches; it is omitted from the embedding. -/

/-- Embeds `GunBatteryConfig` (minus the opaque `fire_effect` callback). -/
structure GunBatteryConfig where
  inter_gun_duration : ℚ
  gun_reload : ℚ
  battery_reload : ℚ
  poses : List Mat4
deriving DecidableEq

/-- Embeds `GunStatus`: per-slot last fire time and readiness flag. -/
structure GunStatus where
  last_fire_time : ℚ
  is_ready : Bool
deriving DecidableEq

/-- Embeds `GunBattery`. -/
structure GunBattery where
  config : GunBatteryConfig
  current_index : ℕ
  last_gun_fire_time : ℚ
  last_in_battery_fire_time : ℚ
  is_triggered : Bool
  is_ready : Bool
  status : List GunStatus
deriving DecidableEq

/-- Embeds `GunBattery::new(config)`. -/
def GunBattery.new (config : GunBatteryConfig) : GunBattery :=
  { config := config
    current_index := 0
    last_gun_fire_time := -config.gun_reload
    last_in_battery_fire_time := -config.battery_reload
    is_triggered := false
    is_ready := true
    status := List.replicate config.poses.length
      { last_fire_time := -config.gun_reload, is_ready := true } }

/-- Embeds `GunBattery::set_trigger(value)`. -/
def GunBattery.set_trigger (b : GunBattery) (value : Bool) : GunBattery :=
  { b with is_triggered := value }

/-- Embeds `GunBattery::update(current_time)`. -/
def GunBattery.update (b : GunBattery) (current_time : ℚ) : GunBattery :=
  let gun_interval_done :=
    decide (current_time - b.last_gun_fire_time ≥ b.config.inter_gun_duration)
  let battery_reload_done :=
    decide (current_time - b.last_in_battery_fire_time ≥ b.config.battery_reload)
  let status := b.status.map fun gun_status =>
    { gun_status with
      is_ready :=
        decide (current_time - gun_status.last_fire_time ≥ b.config.gun_reload) }
  let at_least_one_gun_loaded := status.any (fun gun_status => gun_status.is_ready)
  { b with
    status := status
    is_ready := battery_reload_done && at_least_one_gun_loaded && gun_interval_done }

/-- Embeds `GunBattery::fired(current_time)`.  The Rust code indexes
`self.status[self.current_index]` and `self.config.poses[self.current_index]`,
which panics when either index is out of bounds; the panic is embedded as
`none`. -/
def GunBattery.fired (b : GunBattery) (current_time : ℚ) :
    Option (GunBattery × Mat4) :=
  if h : b.current_index < b.status.length ∧ b.current_index < b.config.poses.length
  then
    let status2 := b.status.set b.current_index
      { last_fire_time := current_time, is_ready := false }
    let fire_pose := b.config.poses.get ⟨b.current_index, h.2⟩
    let b2 :=
      if status2.length ≤ b.current_index + 1 then
        { b with
          status := status2
          last_gun_fire_time := current_time
          last_in_battery_fire_time := current_time
          current_index := 0 }
      else
        { b with
          status := status2
          last_gun_fire_time := current_time
          current_index := b.current_index + 1 }
    some (b2.update current_time, fire_pose)
  else none

/-- Embeds `GunBattery::gun_index()`. -/
def GunBattery.gun_index (b : GunBattery) : ℕ :=
  b.current_index

/-! ## Kinematic chain evaluator (`world_velocity` of `velocity.rs`) -/

/-- Modelled from the spec: the external entity/component store (spec §6:
`get_component<T>(entity) -> optional T`), restricted to the four component
types `world_velocity` queries — `Pose`, `Velocity`, `PreTransform` (each a
fixed offset/twist attached to an entity, or absent) and the `Parent`
back-reference.  Entities are opaque identifiers, embedded as `ℕ`. -/
structure KinWorld where
  pose : ℕ → Option Mat4
  velocity : ℕ → Option Velocity
  pre_transform : ℕ → Option Mat4
  parent : ℕ → Option ℕ

/-- The body of the `loop` in `world_velocity`, for one node: fold the
node's own `Pose` (defaulting to identity) into the running pose, add the
node's own `Velocity` (defaulting to zero) to the running twist and
re-express the sum through the pose's adjoint, then do the same with the
node's `PreTransform`.  Returns the new `(current_pose, current_velocity)`
pair. -/
def world_velocity_step (w : KinWorld) (current_id : ℕ) (current_pose : Mat4)
    (current_velocity : Velocity) : Mat4 × Velocity :=
  let pose_t := (w.pose current_id).getD Mat4.identity
  let vel_t := (w.velocity current_id).getD Velocity.zero
  let pose1 := pose_t.mul current_pose
  let combined_vel := current_velocity.add vel_t
  let vel1 := adjointApply pose_t combined_vel
  let pre_pose_t := (w.pre_transform current_id).getD Mat4.identity
  (pre_pose_t.mul pose1, adjointApply pre_pose_t vel1)

/-- Embeds the `loop` of `world_velocity`, made total with a fuel parameter: after
each node the loop follows the `Parent` link, and breaks at the first node
without one, finally re-expressing the accumulated twist through the
adjoint of the accumulated pose.  `none` means the fuel ran out before a
root was reached (the source loop would still be running). -/
def world_velocity_loop (w : KinWorld) :
    ℕ → ℕ → Mat4 → Velocity → Option Velocity
  | 0, _, _, _ => none
  | Nat.succ fuel, current_id, current_pose, current_velocity =>
    let s := world_velocity_step w current_id current_pose current_velocity
    match w.parent current_id with
    | some p => world_velocity_loop w fuel p s.1 s.2
    | none => some (adjointApply s.1 s.2)

/-- Embeds `world_velocity(world, entity)` (fueled): starts from the
identity pose and the zero twist at `entity`. -/
def world_velocity (w : KinWorld) (entity : ℕ) (fuel : ℕ) : Option Velocity :=
  world_velocity_loop w fuel entity Mat4.identity Velocity.zero

/-- Modelled from the spec: the per-node accumulation exactly as the spec
words it — "re-express the running velocity into the new frame via the
adjoint of this node's pose and add this node's own stored Velocity; then
apply this node's `PreTransform` the same way" — i.e. the adjoint is
applied to the running velocity alone, and the node's own velocity is added
afterwards.  Kept separate from the source embedding `world_velocity_step`
so the two can be compared. -/
def world_velocity_step_claim (w : KinWorld) (current_id : ℕ)
    (current_pose : Mat4) (current_velocity : Velocity) : Mat4 × Velocity :=
  let pose_t := (w.pose current_id).getD Mat4.identity
  let vel_t := (w.velocity current_id).getD Velocity.zero
  let pose1 := pose_t.mul current_pose
  let vel1 := (adjointApply pose_t current_velocity).add vel_t
  let pre_pose_t := (w.pre_transform current_id).getD Mat4.identity
  (pre_pose_t.mul pose1, adjointApply pre_pose_t vel1)

/-- The loop of `world_velocity` rebuilt on the spec-worded step
`world_velocity_step_claim`, for comparison with the source embedding. -/
def world_velocity_loop_claim (w : KinWorld) :
    ℕ → ℕ → Mat4 → Velocity → Option Velocity
  | 0, _, _, _ => none
  | Nat.succ fuel, current_id, current_pose, current_velocity =>
    let s := world_velocity_step_claim w current_id current_pose current_velocity
    match w.parent current_id with
    | some p => world_velocity_loop_claim w fuel p s.1 s.2
    | none => some (adjointApply s.1 s.2)

/-- Variant of `world_velocity` rebuilt on the spec-worded per-node accumulation. -/
def world_velocity_claim (w : KinWorld) (entity : ℕ) (fuel : ℕ) :
    Option Velocity :=
  world_velocity_loop_claim w fuel entity Mat4.identity Velocity.zero

/-- Computes the `k`-th ancestor of an entity along `Parent` links, when the chain is
at least that long. -/
def ancestor (w : KinWorld) : ℕ → ℕ → Option ℕ
  | 0, e => some e
  | Nat.succ k, e => (w.parent e).bind (ancestor w k)

/-! ## Claims about `GunBattery` -/

/-- C1: `update(now)` sets each slot's readiness to exactly
`now - slot.last_fire_time >= gun_reload` (leaving the slot's fire time in
place), and the device-level `is_ready` to exactly the conjunction of the
battery-reload condition, the inter-gun-spacing condition, and the
existence of an individually ready slot. -/
theorem gun_battery_update_readiness (b : GunBattery) (t : ℚ) :
    (b.update t).status = b.status.map (fun g =>
      ⟨g.last_fire_time, decide (t - g.last_fire_time ≥ b.config.gun_reload)⟩)
    ∧ ((b.update t).is_ready = true ↔
        (t - b.last_in_battery_fire_time ≥ b.config.battery_reload
          ∧ t - b.last_gun_fire_time ≥ b.config.inter_gun_duration
          ∧ ∃ g ∈ b.status, t - g.last_fire_time ≥ b.config.gun_reload)) := by
  constructor
  · rfl
  · simp only [GunBattery.update, Bool.and_eq_true, decide_eq_true_eq,
      List.any_map, List.any_eq_true, Function.comp]
    tauto

/-- A small concrete configuration (two slots) used by the witnesses. -/
def cfgA : GunBatteryConfig :=
  { inter_gun_duration := 1
    gun_reload := 2
    battery_reload := 3
    poses := [Mat4.from_translation ⟨0, 0, 0⟩, Mat4.from_translation ⟨0, 1, 0⟩] }

/-- C2: `fired(now)` — with no readiness precondition — replaces the current
slot by `{last_fire_time := now, is_ready := false}`, sets the device-wide
`last_gun_fire_time` to `now`, returns the configured pose of the slot that
fired, advances `current_index` (wrapping to `0` and stamping
`last_in_battery_fire_time` when the last slot fired), and finally
re-invokes `update(now)` on that intermediate state.  The hypotheses are
the in-bounds invariant that `GunBattery::new` establishes and every
mutator preserves (see `gun_battery_index_invariant`). -/
theorem gun_battery_fired_behavior (b : GunBattery) (t : ℚ)
    (h1 : b.current_index < b.status.length)
    (h2 : b.current_index < b.config.poses.length) :
    b.fired t = some
      (GunBattery.update
        { b with
          status := b.status.set b.current_index
            { last_fire_time := t, is_ready := false }
          last_gun_fire_time := t
          last_in_battery_fire_time :=
            if b.status.length ≤ b.current_index + 1 then t
            else b.last_in_battery_fire_time
          current_index :=
            if b.status.length ≤ b.current_index + 1 then 0
            else b.current_index + 1 } t,
       b.config.poses.getD b.current_index Mat4.identity) := by
  unfold GunBattery.fired
  rw [dif_pos ⟨h1, h2⟩]
  rw [List.getD_eq_getElem b.config.poses Mat4.identity h2]
  simp only [List.length_set]
  split
  · rfl
  · rfl

/-- Witness for `gun_battery_fired_behavior` at a concrete battery. -/
theorem gun_battery_fired_behavior_witness :
    (GunBattery.new cfgA).fired 0 = some
      (GunBattery.update
        { GunBattery.new cfgA with
          status := (GunBattery.new cfgA).status.set 0
            { last_fire_time := 0, is_ready := false }
          last_gun_fire_time := 0
          last_in_battery_fire_time :=
            if (GunBattery.new cfgA).status.length ≤ 0 + 1 then 0
            else (GunBattery.new cfgA).last_in_battery_fire_time
          current_index :=
            if (GunBattery.new cfgA).status.length ≤ 0 + 1 then 0
            else 0 + 1 } 0,
       cfgA.poses.getD 0 Mat4.identity) :=
  gun_battery_fired_behavior (GunBattery.new cfgA) 0 (by decide) (by decide)

/-- Repeating `update` at the same time is a no-op: shared helper for the
idempotence claim and the scenario claim. -/
theorem GunBattery.update_update (b : GunBattery) (t : ℚ) :
    (b.update t).update t = b.update t := by
  cases b with
  | mk config current_index last_gun lib trig rdy st =>
    simp only [GunBattery.update, List.map_map, List.any_map]
    rfl

/-- C6: `update(t)` never changes `current_index`, any slot's
`last_fire_time`, `last_gun_fire_time`, `last_in_battery_fire_time` or
`is_triggered` — only the derived readiness flags — and repeating it any
number of times at the same `t` yields the same state as a single call. -/
theorem gun_battery_update_frame (b : GunBattery) (t : ℚ) :
    (b.update t).current_index = b.current_index
    ∧ (b.update t).status.map GunStatus.last_fire_time
        = b.status.map GunStatus.last_fire_time
    ∧ (b.update t).last_gun_fire_time = b.last_gun_fire_time
    ∧ (b.update t).last_in_battery_fire_time = b.last_in_battery_fire_time
    ∧ (b.update t).is_triggered = b.is_triggered
    ∧ (b.update t).config = b.config
    ∧ ∀ n : ℕ, (fun x => GunBattery.update x t)^[n] (b.update t) = b.update t := by
  refine ⟨rfl, ?_, rfl, rfl, rfl, rfl, ?_⟩
  · simp only [GunBattery.update, List.map_map]
    rfl
  · intro n
    induction n with
    | zero => rfl
    | succ n ih =>
      rw [Function.iterate_succ_apply, GunBattery.update_update]
      exact ih

/-- The 4-slot configuration of the scenario claim (and of the first case
of `test_gun_battery` in the source): `inter_gun_duration = 1`,
`gun_reload = 2`, `battery_reload = 3`. -/
def c7cfg : GunBatteryConfig :=
  { inter_gun_duration := 1
    gun_reload := 2
    battery_reload := 3
    poses := [Mat4.from_translation ⟨0, 0, 0⟩, Mat4.from_translation ⟨0, 1, 0⟩,
              Mat4.from_translation ⟨0, 2, 0⟩, Mat4.from_translation ⟨0, 3, 0⟩] }

/-- Runs `fired` and keeps the new state (the scenario claims never hit
the out-of-bounds panic, so the `none` fallback is inert). -/
def fireStep (b : GunBattery) (t : ℚ) : GunBattery :=
  match b.fired t with
  | some p => p.1
  | none => b

/-- Scenario state after the first shot at `t = 0`. -/
def c7afterShot1 : GunBattery := fireStep ((GunBattery.new c7cfg).update 0) 0

/-- Scenario state after `update 1` (one inter-gun spacing later). -/
def c7atTime1 : GunBattery := c7afterShot1.update 1

/-- Scenario state after the fourth shot (shots at times 0, 1, 3, 3; the
fourth wraps the slot index around). -/
def c7afterShot4 : GunBattery :=
  fireStep (fireStep ((fireStep c7atTime1 1).update 3) 3) 3

/-- C7: with the 4-slot configuration, the fresh device is ready;
immediately after the first `fired` it is not; after one
`inter_gun_duration` and an `update` it is ready again; after the fourth
slot fires (wraparound, at time `3`) the device is not ready at any time
before `battery_reload` has elapsed since that shot, and once it has
elapsed it is ready with `current_index = 0`. -/
theorem gun_battery_scenario (t : ℚ) (h1 : 3 ≤ t)
    (h2 : t < 3 + c7cfg.battery_reload) :
    (GunBattery.new c7cfg).is_ready = true
    ∧ c7afterShot1.is_ready = false
    ∧ c7atTime1.is_ready = true
    ∧ (c7afterShot4.update t).is_ready = false
    ∧ (c7afterShot4.update (3 + c7cfg.battery_reload)).is_ready = true
    ∧ (c7afterShot4.update (3 + c7cfg.battery_reload)).current_index = 0 := by
  refine ⟨rfl, of_decide_eq_true (by with_unfolding_all rfl),
    of_decide_eq_true (by with_unfolding_all rfl), ?_,
    of_decide_eq_true (by with_unfolding_all rfl),
    of_decide_eq_true (by with_unfolding_all rfl)⟩
  have hb : c7afterShot4 =
      { config := c7cfg
        current_index := 0
        last_gun_fire_time := 3
        last_in_battery_fire_time := 3
        is_triggered := false
        is_ready := false
        status := [⟨0, true⟩, ⟨1, true⟩, ⟨3, false⟩, ⟨3, false⟩] } :=
    of_decide_eq_true (by with_unfolding_all rfl)
  have hbr : c7cfg.battery_reload = (3 : ℚ) := rfl
  rw [hb]
  have h3 : ¬ ((3 : ℚ) ≤ t - 3) := by rw [hbr] at h2; intro h; linarith
  simp [GunBattery.update, c7cfg, h3]

/-- Witness for `gun_battery_scenario` at `t = 4`. -/
theorem gun_battery_scenario_witness :
    (GunBattery.new c7cfg).is_ready = true
    ∧ c7afterShot1.is_ready = false
    ∧ c7atTime1.is_ready = true
    ∧ (c7afterShot4.update 4).is_ready = false
    ∧ (c7afterShot4.update (3 + c7cfg.battery_reload)).is_ready = true
    ∧ (c7afterShot4.update (3 + c7cfg.battery_reload)).current_index = 0 :=
  gun_battery_scenario 4 (by norm_num) (by rw [show c7cfg.battery_reload = (3:ℚ) from rfl]; norm_num)

/-- The indexing invariant of `GunBattery`: the current slot index is in
bounds and the slot list matches the configured pose list in length. -/
def gunBatteryInv (b : GunBattery) : Prop :=
  b.current_index < b.status.length
  ∧ b.status.length = b.config.poses.length

/-- C9: for a non-empty pose list the indexing invariant holds after `new`
and is preserved by `update`, `set_trigger` and `fired` (so the indexing
inside `fired` never goes out of bounds — `fired` returns a result instead
of panicking); for an empty pose list the very first `fired` hits the
out-of-bounds access (embedded as `none`). -/
theorem gun_battery_index_invariant :
    (∀ cfg : GunBatteryConfig, cfg.poses ≠ [] →
      gunBatteryInv (GunBattery.new cfg))
    ∧ (∀ (b : GunBattery) (t : ℚ), gunBatteryInv b →
        gunBatteryInv (b.update t))
    ∧ (∀ (b : GunBattery) (v : Bool), gunBatteryInv b →
        gunBatteryInv (b.set_trigger v))
    ∧ (∀ (b : GunBattery) (t : ℚ), gunBatteryInv b →
        ∃ b2 p, b.fired t = some (b2, p) ∧ gunBatteryInv b2)
    ∧ (∀ (cfg : GunBatteryConfig) (t : ℚ), cfg.poses = [] →
        (GunBattery.new cfg).fired t = none) := by
  refine ⟨?_, ?_, ?_, ?_, ?_⟩
  · intro cfg hne
    constructor
    · simpa [GunBattery.new, List.length_replicate, List.length_pos] using hne
    · simp [GunBattery.new, List.length_replicate]
  · intro b t hinv
    exact ⟨by simpa [GunBattery.update] using hinv.1,
      by simpa [GunBattery.update] using hinv.2⟩
  · intro b v hinv
    exact hinv
  · intro b t hinv
    have h2 : b.current_index < b.config.poses.length := hinv.2 ▸ hinv.1
    unfold GunBattery.fired
    rw [dif_pos ⟨hinv.1, h2⟩]
    refine ⟨_, _, rfl, ?_⟩
    unfold gunBatteryInv
    split
    · refine ⟨?_, ?_⟩
      · simp only [GunBattery.update, List.length_map, List.length_set]
        exact lt_of_le_of_lt (Nat.zero_le _) hinv.1
      · simp only [GunBattery.update, List.length_map, List.length_set]
        exact hinv.2
    · next hlen =>
      simp only [List.length_set] at hlen
      refine ⟨?_, ?_⟩
      · simp only [GunBattery.update, List.length_map, List.length_set]
        exact lt_of_not_le hlen
      · simp only [GunBattery.update, List.length_map, List.length_set]
        exact hinv.2
  · intro cfg t hnil
    unfold GunBattery.fired
    rw [dif_neg]
    simp [GunBattery.new, hnil]

/-- Witness for `gun_battery_index_invariant`: its parts applied at a
concrete configuration and battery. -/
theorem gun_battery_index_invariant_witness :
    gunBatteryInv (GunBattery.new cfgA)
    ∧ (GunBattery.new
        { inter_gun_duration := 0, gun_reload := 0, battery_reload := 0,
          poses := [] }).fired 0 = none :=
  ⟨gun_battery_index_invariant.1 cfgA (by decide),
   gun_battery_index_invariant.2.2.2.2
     { inter_gun_duration := 0, gun_reload := 0, battery_reload := 0,
       poses := [] } 0 rfl⟩

/-- The empty-pose-list configuration refuting the unrestricted fresh
readiness equation of C10. -/
def cfgEmpty : GunBatteryConfig :=
  { inter_gun_duration := 0, gun_reload := 0, battery_reload := 0, poses := [] }

/-- C10 counterexample: with an empty pose list (`cfgEmpty`) and `t = 0`,
`update 0` on a fresh battery leaves `is_ready = false` (no slot exists, so
"at least one gun loaded" fails) even though `t + gun_reload ≥
inter_gun_duration` holds — so the claimed equation fails for this
configuration. -/
theorem gun_battery_fresh_ready_counterexample :
    ¬ (((GunBattery.new cfgEmpty).update 0).is_ready
        = decide ((0 : ℚ) + cfgEmpty.gun_reload ≥ cfgEmpty.inter_gun_duration)) :=
  of_decide_eq_true (by with_unfolding_all rfl)

/-- C10 (amended: the readiness equation requires at least one configured
pose): `new` initializes every slot's `last_fire_time` to `-gun_reload`,
`last_gun_fire_time` to `-gun_reload` and `last_in_battery_fire_time` to
`-battery_reload`; consequently on a fresh battery with a non-empty pose
list, for `t ≥ 0`, `update t` finds every slot ready and the
battery-reload condition satisfied, and `is_ready` equals
`t + gun_reload ≥ inter_gun_duration` — in particular a fresh battery with
`gun_reload < inter_gun_duration` reports not ready after `update 0`
(that last part holds for every configuration). -/
theorem gun_battery_fresh_ready_amended (cfg : GunBatteryConfig) (t : ℚ)
    (hne : cfg.poses ≠ []) (ht : 0 ≤ t) :
    ((GunBattery.new cfg).status
        = List.replicate cfg.poses.length ⟨-cfg.gun_reload, true⟩
      ∧ (GunBattery.new cfg).last_gun_fire_time = -cfg.gun_reload
      ∧ (GunBattery.new cfg).last_in_battery_fire_time = -cfg.battery_reload)
    ∧ (∀ g ∈ ((GunBattery.new cfg).update t).status, g.is_ready = true)
    ∧ (t - (GunBattery.new cfg).last_in_battery_fire_time ≥ cfg.battery_reload)
    ∧ (((GunBattery.new cfg).update t).is_ready
        = decide (t + cfg.gun_reload ≥ cfg.inter_gun_duration))
    ∧ (∀ cfg2 : GunBatteryConfig, cfg2.gun_reload < cfg2.inter_gun_duration →
        ((GunBattery.new cfg2).update 0).is_ready = false) := by
  have hready : ∀ g ∈ ((GunBattery.new cfg).update t).status, g.is_ready = true := by
    intro g hg
    simp only [GunBattery.new, GunBattery.update, List.map_replicate,
      List.mem_replicate] at hg
    rw [hg.2]
    simp only [decide_eq_true_eq, ge_iff_le]
    linarith
  refine ⟨⟨rfl, rfl, rfl⟩, hready, ?_, ?_, ?_⟩
  · show t - -cfg.battery_reload ≥ cfg.battery_reload
    simp only [ge_iff_le, sub_neg_eq_add]
    linarith
  · have key : ((GunBattery.new cfg).update t).is_ready
        = (decide (t - -cfg.battery_reload ≥ cfg.battery_reload)
          && (List.replicate cfg.poses.length
              (⟨-cfg.gun_reload, decide (t - -cfg.gun_reload ≥ cfg.gun_reload)⟩ : GunStatus)).any
            (fun gun_status => gun_status.is_ready)
          && decide (t - -cfg.gun_reload ≥ cfg.inter_gun_duration)) := by
      simp only [GunBattery.new, GunBattery.update, List.map_replicate]
    have e1 : decide (t - -cfg.battery_reload ≥ cfg.battery_reload) = true := by
      simp only [decide_eq_true_eq, ge_iff_le, sub_neg_eq_add]
      linarith
    have e2 : (List.replicate cfg.poses.length
        (⟨-cfg.gun_reload, decide (t - -cfg.gun_reload ≥ cfg.gun_reload)⟩ : GunStatus)).any
          (fun gun_status => gun_status.is_ready) = true := by
      have harg : decide (t - -cfg.gun_reload ≥ cfg.gun_reload) = true := by
        simp only [decide_eq_true_eq, ge_iff_le, sub_neg_eq_add]
        linarith
      cases hl : cfg.poses.length with
      | zero => exact absurd (List.length_eq_zero.mp hl) hne
      | succ n =>
        simp only [List.replicate_succ, List.any_cons, harg, Bool.true_or]
    have e3 : (t - -cfg.gun_reload ≥ cfg.inter_gun_duration)
        ↔ (t + cfg.gun_reload ≥ cfg.inter_gun_duration) := by
      rw [sub_neg_eq_add]
    rw [key, e1, e2]
    simp only [Bool.true_and]
    exact decide_eq_decide.mpr e3
  · intro cfg2 hlt
    have key2 : ((GunBattery.new cfg2).update 0).is_ready
        = (decide ((0:ℚ) - -cfg2.battery_reload ≥ cfg2.battery_reload)
          && (List.replicate cfg2.poses.length
              (⟨-cfg2.gun_reload, decide ((0:ℚ) - -cfg2.gun_reload ≥ cfg2.gun_reload)⟩ : GunStatus)).any
            (fun gun_status => gun_status.is_ready)
          && decide ((0:ℚ) - -cfg2.gun_reload ≥ cfg2.inter_gun_duration)) := by
      simp only [GunBattery.new, GunBattery.update, List.map_replicate]
    have e4 : decide ((0:ℚ) - -cfg2.gun_reload ≥ cfg2.inter_gun_duration) = false := by
      simp only [decide_eq_false_iff_not, ge_iff_le, not_le, zero_sub, neg_neg]
      linarith
    rw [key2, e4]
    simp

/-- Witness for `gun_battery_fresh_ready_amended` at `cfgA` and `t = 1`. -/
theorem gun_battery_fresh_ready_amended_witness :
    ((GunBattery.new cfgA).status
        = List.replicate cfgA.poses.length ⟨-cfgA.gun_reload, true⟩
      ∧ (GunBattery.new cfgA).last_gun_fire_time = -cfgA.gun_reload
      ∧ (GunBattery.new cfgA).last_in_battery_fire_time = -cfgA.battery_reload)
    ∧ (∀ g ∈ ((GunBattery.new cfgA).update 1).status, g.is_ready = true)
    ∧ ((1:ℚ) - (GunBattery.new cfgA).last_in_battery_fire_time ≥ cfgA.battery_reload)
    ∧ (((GunBattery.new cfgA).update 1).is_ready
        = decide ((1:ℚ) + cfgA.gun_reload ≥ cfgA.inter_gun_duration))
    ∧ (∀ cfg2 : GunBatteryConfig, cfg2.gun_reload < cfg2.inter_gun_duration →
        ((GunBattery.new cfg2).update 0).is_ready = false) :=
  gun_battery_fresh_ready_amended cfgA 1 (by decide) (by norm_num)

/-! ## Claims about `velocity.rs` -/

/-- Left multiplication by the identity transform is the identity. -/
theorem Mat4.one_mul (m : Mat4) : Mat4.identity.mul m = m := by
  ext <;> simp [Mat4.mul, Mat4.mulVec, Mat4.identity, Vec4.smul, Vec4.add]

/-- Right multiplication by the identity transform is the identity. -/
theorem Mat4.mul_one (m : Mat4) : m.mul Mat4.identity = m := by
  ext <;> simp [Mat4.mul, Mat4.mulVec, Mat4.identity, Vec4.smul, Vec4.add]

/-- The adjoint of the identity transform is the identity on twists. -/
theorem adjointApply_identity (t : Velocity) :
    adjointApply Mat4.identity t = t := by
  ext <;>
    simp [adjointApply, Mat4.identity, Mat4.rotVec, Vec4.truncate, Vec3.smul,
      Vec3.add, Vec3.cross]

/-- Adding the zero twist is the identity. -/
theorem Velocity.add_zero (a : Velocity) : a.add Velocity.zero = a := by
  ext <;> simp [Velocity.add, Velocity.zero, Vec3.add, Vec3.zero]

/-- Rotation about x by angle 0 is the identity. -/
theorem Mat4.from_angle_x_id : Mat4.from_angle_x 1 0 = Mat4.identity := by
  ext <;> simp [Mat4.from_angle_x, Mat4.identity]

/-- Rotation about y by angle 0 is the identity. -/
theorem Mat4.from_angle_y_id : Mat4.from_angle_y 1 0 = Mat4.identity := by
  ext <;> simp [Mat4.from_angle_y, Mat4.identity]

/-- Rotation about z by angle 0 is the identity. -/
theorem Mat4.from_angle_z_id : Mat4.from_angle_z 1 0 = Mat4.identity := by
  ext <;> simp [Mat4.from_angle_z, Mat4.identity]

/-- With a zero angular rate, one `integrate` step is exactly the
translation by `v * dt`. -/
theorem Velocity.integrate_zero_w (cF sF : ℚ → ℚ) (hc : cF 0 = 1)
    (hs : sF 0 = 0) (u : Vec3) (dt : ℚ) :
    Velocity.integrate cF sF ⟨u, Vec3.zero⟩ dt
      = Mat4.from_translation ⟨u.x * dt, u.y * dt, u.z * dt⟩ := by
  show (((Mat4.from_translation ⟨u.x * dt, u.y * dt, u.z * dt⟩).mul
      (Mat4.from_angle_x (cF (0 * dt)) (sF (0 * dt)))).mul
      (Mat4.from_angle_y (cF (0 * dt)) (sF (0 * dt)))).mul
      (Mat4.from_angle_z (cF (0 * dt)) (sF (0 * dt))) = _
  rw [zero_mul, hc, hs, Mat4.from_angle_x_id, Mat4.from_angle_y_id,
    Mat4.from_angle_z_id, Mat4.mul_one, Mat4.mul_one, Mat4.mul_one]

/-- Composing two translations adds the translation vectors. -/
theorem Mat4.from_translation_mul (a b : Vec3) :
    (Mat4.from_translation a).mul (Mat4.from_translation b)
      = Mat4.from_translation (a.add b) := by
  ext <;>
    simp [Mat4.mul, Mat4.mulVec, Mat4.from_translation, Vec4.smul, Vec4.add,
      Vec3.add] <;>
    ring

/-- Composing `n` copies of a translation onto the identity translates by
`n` times the vector. -/
theorem Mat4.iterate_from_translation (a : Vec3) (n : ℕ) :
    (fun p => p.mul (Mat4.from_translation a))^[n] Mat4.identity
      = Mat4.from_translation ⟨n * a.x, n * a.y, n * a.z⟩ := by
  induction n with
  | zero =>
    show Mat4.identity = _
    ext <;> simp [Mat4.identity, Mat4.from_translation]
  | succ n ih =>
    rw [Function.iterate_succ_apply', ih, Mat4.from_translation_mul]
    congr 1
    ext <;> simp [Vec3.add] <;> ring

/-- The pure-translation twist `(v = (1,0,0), w = 0)` of the claim. -/
def vtrans : Velocity := ⟨⟨1, 0, 0⟩, Vec3.zero⟩

/-- C8: composing `integrate` of the pure-translation twist `(1,0,0)` at
`dt = 1/100` onto the identity pose 100 times yields an x translation
within `1e-5` of `1` (here exactly `1`: the embedding computes with exact
rationals); and with a zero angular rate each single step is exactly the
translation by `v * dt`. -/
theorem velocity_integration_translation (cF sF : ℚ → ℚ) (hc : cF 0 = 1)
    (hs : sF 0 = 0) (u : Vec3) (dt : ℚ) :
    |((fun p => p.mul (vtrans.integrate cF sF (1/100)))^[100]
        Mat4.identity).w.x - 1| ≤ 1/100000
    ∧ Velocity.integrate cF sF ⟨u, Vec3.zero⟩ dt
        = Mat4.from_translation ⟨u.x * dt, u.y * dt, u.z * dt⟩ := by
  have hstep := Velocity.integrate_zero_w cF sF hc hs
  constructor
  · have h1 : vtrans.integrate cF sF (1/100)
        = Mat4.from_translation ⟨1 * (1/100), 0 * (1/100), 0 * (1/100)⟩ :=
      hstep ⟨1, 0, 0⟩ (1/100)
    rw [h1, Mat4.iterate_from_translation]
    norm_num [Mat4.from_translation]
  · exact hstep u dt

/-- Witness for `velocity_integration_translation` with constant cosine `1`
and sine `0` and a concrete second twist. -/
theorem velocity_integration_translation_witness :
    |((fun p => p.mul (vtrans.integrate (fun _ => 1) (fun _ => 0) (1/100)))^[100]
        Mat4.identity).w.x - 1| ≤ 1/100000
    ∧ Velocity.integrate (fun _ => 1) (fun _ => 0) ⟨⟨2, 3, 5⟩, Vec3.zero⟩ 7
        = Mat4.from_translation ⟨2 * 7, 3 * 7, 5 * 7⟩ :=
  velocity_integration_translation (fun _ => 1) (fun _ => 0) rfl rfl ⟨2, 3, 5⟩ 7

/-- A pose whose rotation block `diag(3, 1, 1)` is far from orthonormal:
the counterexample input for the orthonormalization claim. -/
def poseScale3 : Mat4 :=
  ⟨⟨3, 0, 0, 0⟩, ⟨0, 1, 0, 0⟩, ⟨0, 0, 1, 0⟩, ⟨0, 0, 0, 1⟩⟩

/-- C5 counterexample: at the pose `diag(3,1,1)` with the zero twist and
`dt = 1`, the correction `integrate_pose` actually applies differs from the
pure three-column rescaling of the claim (the code additionally divides the
columns by the determinant of the rescaled block), and neither result has
all columns within `1e-4` of unit norm: the code's y column has squared
norm `1/81`, the claimed method's x column has squared norm `81`. -/
theorem integrate_pose_orthonormalize_counterexample :
    Velocity.integrate_pose (fun _ => 1) (fun _ => 0) Velocity.zero poseScale3 1
      ≠ integrate_pose_spec (fun _ => 1) (fun _ => 0) Velocity.zero poseScale3 1
    ∧ ¬ colNormWithin
        (Velocity.integrate_pose (fun _ => 1) (fun _ => 0) Velocity.zero
          poseScale3 1).y.truncate (1/10000)
    ∧ ¬ colNormWithin
        (integrate_pose_spec (fun _ => 1) (fun _ => 0) Velocity.zero
          poseScale3 1).x.truncate (1/10000) :=
  of_decide_eq_true (by with_unfolding_all rfl)

/-- C5 (amended: the correction is the three-column rescaling *followed by
a division of the rotation columns by the determinant of the rescaled
block*; the translation column is kept; the unit-norm tolerance is not
guaranteed for arbitrary inputs): the exact shape of the correction inside
`integrate_pose`, and the fact that the translation column of the composed
matrix is left unchanged. -/
theorem integrate_pose_orthonormalize_amended (cF sF : ℚ → ℚ)
    (vel : Velocity) (pose : Mat4) (dt : ℚ) :
    Velocity.integrate_pose cF sF vel pose dt
      = (let res := pose.mul (vel.integrate cF sF dt)
         let c0 := Vec3.smul (1/2 * (3 - res.x.truncate.dot res.x.truncate))
           res.x.truncate
         let c1 := Vec3.smul (1/2 * (3 - res.y.truncate.dot res.y.truncate))
           res.y.truncate
         let c2 := Vec3.smul (1/2 * (3 - res.z.truncate.dot res.z.truncate))
           res.z.truncate
         ⟨(Vec3.smul (1 / det3 c0 c1 c2) c0).extend 0,
          (Vec3.smul (1 / det3 c0 c1 c2) c1).extend 0,
          (Vec3.smul (1 / det3 c0 c1 c2) c2).extend 0,
          res.w⟩)
    ∧ (Velocity.integrate_pose cF sF vel pose dt).w
        = (pose.mul (vel.integrate cF sF dt)).w :=
  ⟨rfl, rfl⟩

/-- A 90° rotation about z (rotation block with columns
`(0,1,0), (-1,0,0), (0,0,1)`), as a literal matrix. -/
def rotZ90 : Mat4 :=
  ⟨⟨0, 1, 0, 0⟩, ⟨-1, 0, 0, 0⟩, ⟨0, 0, 1, 0⟩, ⟨0, 0, 0, 1⟩⟩

/-- A one-node world: entity `0` has pose `rotZ90` and body velocity
`(1,0,0)`, no pre-transform and no parent. -/
def wOneNode : KinWorld :=
  { pose := fun i => if i = 0 then some rotZ90 else none
    velocity := fun i => if i = 0 then some ⟨⟨1, 0, 0⟩, Vec3.zero⟩ else none
    pre_transform := fun _ => none
    parent := fun _ => none }

/-- C4 counterexample: on the one-node world `wOneNode` the evaluator and
the spec-worded accumulation disagree, both at the single step and on the
final result of `world_velocity`: the code computes
`adjoint(pose) * (running + own)` while the claim words
`adjoint(pose) * running + own`. -/
theorem world_velocity_adjoint_order_counterexample :
    world_velocity_step wOneNode 0 Mat4.identity Velocity.zero
      ≠ world_velocity_step_claim wOneNode 0 Mat4.identity Velocity.zero
    ∧ world_velocity wOneNode 0 1 ≠ world_velocity_claim wOneNode 0 1 :=
  of_decide_eq_true (by with_unfolding_all rfl)

/-- C4 (amended: at each node the evaluator adds the node's own stored
Velocity to the running velocity first and then re-expresses the sum
through the adjoint of the node's Pose; the PreTransform adjoint is then
applied to that result; missing Pose/Velocity/PreTransform components
default to identity/zero): the per-node accumulation written out, and the
missing-component default behaviour. -/
theorem world_velocity_adjoint_order_amended :
    (∀ (w : KinWorld) (i : ℕ) (cp : Mat4) (cv : Velocity),
      world_velocity_step w i cp cv
        = (((w.pre_transform i).getD Mat4.identity).mul
            (((w.pose i).getD Mat4.identity).mul cp),
           adjointApply ((w.pre_transform i).getD Mat4.identity)
             (adjointApply ((w.pose i).getD Mat4.identity)
               (cv.add ((w.velocity i).getD Velocity.zero)))))
    ∧ (∀ (w : KinWorld) (i : ℕ) (cp : Mat4) (cv : Velocity),
        w.pose i = none → w.velocity i = none → w.pre_transform i = none →
        world_velocity_step w i cp cv = (cp, cv)) := by
  constructor
  · intro w i cp cv
    rfl
  · intro w i cp cv hp hv hpre
    unfold world_velocity_step
    rw [hp, hv, hpre]
    simp only [Option.getD_none]
    rw [Velocity.add_zero, Mat4.one_mul, Mat4.one_mul, adjointApply_identity,
      adjointApply_identity]

/-- Witness for `world_velocity_adjoint_order_amended` on a world with no
components at all: the step leaves pose and velocity unchanged. -/
theorem world_velocity_adjoint_order_amended_witness :
    world_velocity_step
      ⟨fun _ => none, fun _ => none, fun _ => none, fun _ => none⟩ 5
      Mat4.identity Velocity.zero = (Mat4.identity, Velocity.zero) :=
  world_velocity_adjoint_order_amended.2
    ⟨fun _ => none, fun _ => none, fun _ => none, fun _ => none⟩ 5
    Mat4.identity Velocity.zero rfl rfl rfl

/-- If the chain from `e` reaches a root in `k` parent steps, the loop
yields one fixed result for every fuel greater than `k`. -/
theorem world_velocity_loop_reaches_root (w : KinWorld) :
    ∀ (k e r : ℕ), ancestor w k e = some r → w.parent r = none →
      ∀ (cp : Mat4) (cv : Velocity), ∃ tw, ∀ fuel, k < fuel →
        world_velocity_loop w fuel e cp cv = some tw := by
  intro k
  induction k with
  | zero =>
    intro e r hanc hroot cp cv
    have he : e = r := by
      simpa [ancestor] using hanc
    subst he
    refine ⟨adjointApply (world_velocity_step w e cp cv).1
      (world_velocity_step w e cp cv).2, ?_⟩
    intro fuel hf
    cases fuel with
    | zero => omega
    | succ m =>
      unfold world_velocity_loop
      rw [hroot]
  | succ k ih =>
    intro e r hanc hroot cp cv
    obtain ⟨p, hp, hanc2⟩ : ∃ p, w.parent e = some p ∧ ancestor w k p = some r := by
      unfold ancestor at hanc
      cases hpe : w.parent e with
      | none => rw [hpe] at hanc; exact absurd hanc (by simp)
      | some p =>
        rw [hpe] at hanc
        exact ⟨p, rfl, by simpa using hanc⟩
    obtain ⟨tw, htw⟩ := ih p r hanc2 hroot
      (world_velocity_step w e cp cv).1 (world_velocity_step w e cp cv).2
    refine ⟨tw, ?_⟩
    intro fuel hf
    cases fuel with
    | zero => omega
    | succ m =>
      have hred : world_velocity_loop w (m + 1) e cp cv
          = world_velocity_loop w m p (world_velocity_step w e cp cv).1
              (world_velocity_step w e cp cv).2 := by
        conv_lhs => rw [world_velocity_loop]
        rw [hp]
      rw [hred]
      exact htw m (by omega)

/-- If the chain from `e` never reaches a root, no amount of fuel makes the
loop yield: the fueled approximations of the source loop all diverge. -/
theorem world_velocity_loop_cyclic (w : KinWorld) :
    ∀ (fuel e : ℕ), (∀ k r, ancestor w k e = some r → w.parent r ≠ none) →
      ∀ (cp : Mat4) (cv : Velocity),
        world_velocity_loop w fuel e cp cv = none := by
  intro fuel
  induction fuel with
  | zero =>
    intro e h cp cv
    rfl
  | succ m ih =>
    intro e h cp cv
    have h0 : w.parent e ≠ none := h 0 e rfl
    obtain ⟨p, hp⟩ := Option.ne_none_iff_exists'.mp h0
    have hred : world_velocity_loop w (m + 1) e cp cv
        = world_velocity_loop w m p (world_velocity_step w e cp cv).1
            (world_velocity_step w e cp cv).2 := by
      conv_lhs => rw [world_velocity_loop]
      rw [hp]
    rw [hred]
    apply ih
    intro k r hanc
    apply h (k + 1) r
    show (w.parent e).bind (ancestor w k) = some r
    rw [hp]
    simpa using hanc

/-- C3: when the `Parent` chain from an entity reaches a node with no
parent in `k` steps (a finite, acyclic chain), the evaluation terminates —
there is one twist that `world_velocity` returns for every fuel beyond the
chain length, so the result is fuel-independent and the loop stops at the
first parentless node; when the chain never reaches such a node (a cyclic
parent graph), the loop never finishes — every fueled approximation
returns `none`. -/
theorem world_velocity_termination (w : KinWorld) (e : ℕ) :
    (∀ k r, ancestor w k e = some r → w.parent r = none →
      ∃ tw, ∀ fuel, k < fuel → world_velocity w e fuel = some tw)
    ∧ ((∀ k r, ancestor w k e = some r → w.parent r ≠ none) →
      ∀ fuel, world_velocity w e fuel = none) := by
  constructor
  · intro k r hanc hroot
    exact world_velocity_loop_reaches_root w k e r hanc hroot
      Mat4.identity Velocity.zero
  · intro h fuel
    exact world_velocity_loop_cyclic w fuel e h Mat4.identity Velocity.zero

/-- A two-node chain: `0`'s parent is `1`, and `1` is a root. -/
def wChain2 : KinWorld :=
  { pose := fun _ => none
    velocity := fun _ => none
    pre_transform := fun _ => none
    parent := fun i => if i = 0 then some 1 else none }

/-- Witness for `world_velocity_termination`: on the two-node chain the
evaluation of entity `0` terminates with a fuel-independent result. -/
theorem world_velocity_termination_witness :
    ∃ tw, ∀ fuel, 1 < fuel → world_velocity wChain2 0 fuel = some tw :=
  (world_velocity_termination wChain2 0).1 1 1 rfl rfl
